import Mathlib

/-!
Verification development for the playback pipeline of the `decal` audio engine.

The Rust source is shallowly embedded:

* Samples (`T : Sample + dasp::Sample`) are modelled by `Samp := ℚ`, the exact
  arithmetic of the float sample instantiation: `T::MID = 0`, `T::IDENTITY = 1`,
  `mul_amp` is multiplication.
* The symphonia `FormatReader` is external; its packet stream is modelled by a
  list of `ReaderEvent`s consumed by `next_packet` (the empty list is the
  "end of stream" I/O error).  The symphonia codec is external; the outcome of
  `decode(packet)` is carried on the packet itself (`Packet.outcome`), and the
  mandatory `reset()` calls are counted in `codecResets`.
* The rubato FFT resampler is external; it is modelled by an `FftModel` record
  whose `process` field is an arbitrary function standing for
  `process_into_buffer` (returning the new `out_buf` contents together with the
  `(n_in, n_out)` frame counts).  `Fft::new` is an arbitrary `mkFft` argument.
* Wall-clock reads (`SystemTime::now`) are not modelled; `current_position` is
  modelled by its millisecond value, with the `f64` arithmetic of
  `TimeBase::calc_time` idealised to exact rational arithmetic.

Functions keep the source structure and names (snake_case → camelCase).
-/

set_option maxHeartbeats 1000000

/-- `T::MID`, the silence value: `0` for the float sample model. -/
def MID : ℚ := 0

/-- `T::Float::IDENTITY`, the neutral volume factor: `1.0`. -/
def IDENTITY : ℚ := 1

/-- `dasp` `mul_amp`: scale a sample by an amplitude. -/
def mulAmp (s v : ℚ) : ℚ := s * v

/-- symphonia `TimeBase { numer, denom }`. -/
structure TimeBase where
  numer : Nat
  denom : Nat
deriving DecidableEq, Repr

/-- The `DecoderError` taxonomy of `src/decoder/mod.rs` (payloads elided). -/
inductive DecoderErr where
  | noTracks
  | formatNotFound
  | unsupportedCodec
  | unsupportedFormat
  | decodeError
  | recoverable
  | resetRequired
deriving DecidableEq, Repr

/-- Outcome of the external codec's `decode(packet)` call, carried on the
packet: a decoded buffer with its signal spec (`spec().rate`,
`spec().channels.count()`, `samples_interleaved`), or one of the three error
shapes distinguished by `process_output`. -/
inductive DecodeOutcome where
  | decoded (rate : Nat) (channels : Nat) (samples : List ℚ)
  | decodeError
  | resetRequired
  | otherError
deriving DecidableEq, Repr

/-- A symphonia `Packet` restricted to the fields the decoder reads. -/
structure Packet where
  trackId : Nat
  ts : Nat
  outcome : DecodeOutcome
deriving DecidableEq, Repr

/-- One result of `FormatReader::next_packet`; the end of the event list is the
`UnexpectedEof`/"end of stream" error, `resetRequired` is
`Error::ResetRequired` and `otherError` any other fatal reader error. -/
inductive ReaderEvent where
  | packet (p : Packet)
  | resetRequired
  | otherError
deriving DecidableEq, Repr

/-- The state of `Decoder<T>` (`src/decoder/mod.rs`).  The boxed `reader` is
externalised into the event list threaded through `next`, and the boxed codec
into `Packet.outcome` plus the `codecResets` call counter. -/
structure DecoderS where
  buf : List ℚ
  sampleBuf : List ℚ
  timeBase : TimeBase
  bufLen : Nat
  volume : ℚ
  trackId : Nat
  inputChannels : Nat
  outputChannels : Nat
  timestamp : Nat
  paused : Bool
  sampleRate : Nat
  seekRequiredTs : Option Nat
  codecResets : Nat
deriving DecidableEq, Repr

/-- `Decoder::current`: `&buf[..buf_len]`. -/
def DecoderS.current (d : DecoderS) : List ℚ := d.buf.take d.bufLen

/-- `Decoder::adjust_buffer_size`: grow-only resize of `buf` (a `clear` +
`resize` fills the whole buffer with `MID` when growing), then set `buf_len`. -/
def DecoderS.adjustBufferSize (d : DecoderS) (samplesLength : Nat) : DecoderS :=
  if samplesLength > d.buf.length then
    { d with buf := List.replicate samplesLength MID, bufLen := samplesLength }
  else
    { d with bufLen := samplesLength }

/-- The `(1, 2)` mix loop of `process_output`: duplicate each mono sample to L
and R, scaled by the volume, writing over the front of `buf`. -/
def writeDup (volume : ℚ) : List ℚ → List ℚ → List ℚ
  | [], buf => buf
  | s :: rest, buf => mulAmp s volume :: mulAmp s volume :: writeDup volume rest (buf.drop 2)

/-- The `(2, 1)` mix loop of `process_output`: average each L/R pair
(`mul_amp(0.5)`), scaled by the volume. -/
def writeAvg (volume : ℚ) : List ℚ → List ℚ → List ℚ
  | s0 :: s1 :: rest, buf => mulAmp (mulAmp (s0 + s1) (1 / 2)) volume :: writeAvg volume rest (buf.drop 1)
  | _, buf => buf

/-- The equal-channel mix loop of `process_output`: copy and scale. -/
def writeCopy (volume : ℚ) : List ℚ → List ℚ → List ℚ
  | [], buf => buf
  | s :: rest, buf => mulAmp s volume :: writeCopy volume rest (buf.drop 1)

/-- `Decoder::process_output` (`src/decoder/mod.rs:289`): decode a packet,
capture the signal spec on the first call (rejecting more than two channels),
copy to the interleaved scratch buffer, then mix into `buf`. -/
def DecoderS.processOutput (d : DecoderS) (packet : Packet) : Except DecoderErr DecoderS :=
  match packet.outcome with
  | .decodeError => .error .recoverable
  | .resetRequired => .error .resetRequired
  | .otherError => .error .decodeError
  | .decoded rate channels samples =>
    let first : Except DecoderErr DecoderS :=
      if d.sampleRate = 0 then
        let d := { d with sampleRate := rate, inputChannels := channels }
        if channels > 2 then .error .unsupportedFormat else .ok d
      else .ok d
    match first with
    | .error e => .error e
    | .ok d =>
      let d := { d with sampleBuf := samples }
      let samplesLen := d.sampleBuf.length
      match d.inputChannels, d.outputChannels with
      | 1, 2 =>
        let d := d.adjustBufferSize (samplesLen * 2)
        .ok { d with buf := writeDup d.volume d.sampleBuf d.buf }
      | 2, 1 =>
        let d := d.adjustBufferSize (samplesLen / 2)
        .ok { d with buf := writeAvg d.volume d.sampleBuf d.buf }
      | _, _ =>
        let d := d.adjustBufferSize samplesLen
        .ok { d with buf := writeCopy d.volume d.sampleBuf d.buf }

/-- The packet-reading/decoding loop of `Decoder::next`
(`src/decoder/mod.rs:364`): skip packets from other tracks, while
`seek_required_ts` is `Some` skip matching packets whose `ts` is below it
(clearing the marker at the first one at or past it), set `timestamp`, then
`process_output` — retrying the whole loop on a `Recoverable` decode error.
Returns the decoder, the remaining packet stream, and `Ok(Some ())`/`Ok(None)`
(data / end of stream) or the error. -/
def DecoderS.nextLoop (d : DecoderS) :
    List ReaderEvent → DecoderS × List ReaderEvent × Except DecoderErr (Option Unit)
  | [] => (d, [], .ok none)
  | .resetRequired :: rest => (d, rest, .error .resetRequired)
  | .otherError :: rest => (d, rest, .error .decodeError)
  | .packet p :: rest =>
    if p.trackId = d.trackId then
      match d.seekRequiredTs with
      | some requiredTs =>
        if p.ts < requiredTs then
          DecoderS.nextLoop d rest
        else
          let d1 := { d with seekRequiredTs := none, timestamp := p.ts }
          match d1.processOutput p with
          | .ok d2 => (d2, rest, .ok (some ()))
          | .error .recoverable => DecoderS.nextLoop d1 rest
          | .error e => (d1, rest, .error e)
      | none =>
        let d1 := { d with timestamp := p.ts }
        match d1.processOutput p with
        | .ok d2 => (d2, rest, .ok (some ()))
        | .error .recoverable => DecoderS.nextLoop d1 rest
        | .error e => (d1, rest, .error e)
    else
      DecoderS.nextLoop d rest

/-- `Decoder::next`: when paused overwrite the whole `buf` with `MID` without
touching the reader; otherwise run the packet loop.  A successful call returns
`Ok(Some(current()))`. -/
def DecoderS.next (d : DecoderS) (evs : List ReaderEvent) :
    DecoderS × List ReaderEvent × Except DecoderErr (Option (List ℚ)) :=
  if d.paused then
    let d := { d with buf := List.replicate d.buf.length MID }
    (d, evs, .ok (some d.current))
  else
    match d.nextLoop evs with
    | (d, evs, .ok (some _)) => (d, evs, .ok (some d.current))
    | (d, evs, .ok none) => (d, evs, .ok none)
    | (d, evs, .error e) => (d, evs, .error e)

/-- symphonia `SeekedTo`, restricted to the `required_ts` field the decoder
uses. -/
structure SeekedTo where
  requiredTs : Nat
deriving DecidableEq, Repr

/-- `Decoder::current_position`, reduced to its millisecond value:
`time_base.calc_time(timestamp)` is the exact rational
`timestamp * numer / denom` seconds and the `as u64` cast truncates
(`retrieval_time`, a wall-clock read, is external and not modelled). -/
def DecoderS.currentPositionMillis (d : DecoderS) : Nat :=
  1000 * d.timestamp * d.timeBase.numer / d.timeBase.denom

/-- `Decoder::seek` (`src/decoder/mod.rs:182`).  `rs` stands for the external
`FormatReader::seek(SeekMode::Coarse, SeekTo::Time { .. })`, keyed by the
target position in milliseconds; errors are opaque `Nat` codes.  On demuxer
success the `required_ts` marker is recorded; on failure a re-seek to the
previous position is attempted and the original error returned.  In all cases
the codec is reset (`codecResets` counts the external `reset()` calls). -/
def DecoderS.seek (d : DecoderS) (rs : Nat → Except Nat SeekedTo) (time : Nat) :
    DecoderS × Except Nat SeekedTo :=
  let position := d.currentPositionMillis
  let out :=
    match rs time with
    | .ok result => ({ d with seekRequiredTs := some result.requiredTs }, Except.ok result)
    | .error e =>
      match rs position with
      | .ok seekedTo =>
        ({ d with seekRequiredTs := some seekedTo.requiredTs }, Except.error e)
      | .error e2 => (d, Except.error e2)
  ({ out.1 with codecResets := out.1.codecResets + 1 }, out.2)

/-- The two `InitializeOpt` modes of `Decoder::initialize`. -/
inductive InitializeOpt where
  | trimSilence
  | preserveSilence
deriving DecidableEq, Repr

/-- The `loop` of `Decoder::initialize` (`src/decoder/mod.rs:245`).
`origVolume` is the local `volume` binding saved before the loop, `fuel`
bounds the number of iterations (the Rust loop does not terminate on an
endless all-silent stream: `none` = fuel exhausted), and the count of skipped
silent samples (only logged by the source) is returned for observability. -/
def DecoderS.initializeLoop (origVolume : ℚ) (opt : InitializeOpt) :
    Nat → DecoderS → List ReaderEvent → Nat →
    Option (Except DecoderErr (DecoderS × List ReaderEvent × Nat))
  | 0, _, _, _ => none
  | Nat.succ fuel, d, evs, samplesSkipped =>
    match d.next evs with
    | (_, _, .error e) => some (.error e)
    | (d1, evs1, .ok _) =>
      let d2 := if d1.timeBase.denom = 1 then { d1 with timeBase := ⟨1, d1.sampleRate⟩ } else d1
      if opt = InitializeOpt.preserveSilence then
        some (.ok (d2, evs1, samplesSkipped))
      else
        match d2.buf.findIdx? (fun s => s != MID) with
        | some index =>
          let index := if d2.outputChannels = 2 ∧ index % 2 = 1 then index - 1 else index
          let bufLen := d2.bufLen - index
          let samplesSkipped := samplesSkipped + index
          let bufNoSilence := (d2.buf.drop index).map (fun b => mulAmp b origVolume)
          let buf := bufNoSilence.take bufLen ++ d2.buf.drop bufLen
          some (.ok ({ d2 with bufLen := bufLen, buf := buf, volume := origVolume },
                     evs1, samplesSkipped))
        | none =>
          DecoderS.initializeLoop origVolume opt fuel d2 evs1 (samplesSkipped + d2.buf.length)

/-- `Decoder::initialize` (`src/decoder/mod.rs:236`): save the configured
volume, force it to `IDENTITY` while searching for the first non-silent
sample (restored with the trim), and run the loop. -/
def DecoderS.initializeD (d : DecoderS) (opt : InitializeOpt) (fuel : Nat)
    (evs : List ReaderEvent) :
    Option (Except DecoderErr (DecoderS × List ReaderEvent × Nat)) :=
  let volume := d.volume
  let d := if opt = InitializeOpt.trimSilence then { d with volume := IDENTITY } else d
  DecoderS.initializeLoop volume opt fuel d evs 0

/-- The decoder state as built by `Decoder::new` just before its
`initialize` call: empty buffers, undiscovered spec, not paused. -/
def DecoderS.mk0 (volume : ℚ) (outputChannels trackId : Nat) (timeBase : TimeBase) : DecoderS :=
  { buf := []
    sampleBuf := []
    timeBase := timeBase
    bufLen := 0
    volume := volume
    trackId := trackId
    inputChannels := 0
    outputChannels := outputChannels
    timestamp := 0
    paused := false
    sampleRate := 0
    seekRequiredTs := none
    codecResets := 0 }

/-- rubato `Indexing` as passed by `flush` (`input_offset`, `output_offset`,
`partial_len`, `active_channels_mask`). -/
structure Indexing where
  inputOffset : Nat
  outputOffset : Nat
  partLen : Option Nat
  activeChannelsMask : Option (List Bool)

/-- Model of the external rubato `Fft<T>` resampler.  `process` stands for
`process_into_buffer`: given the interleaved input buffer contents and the
optional `Indexing`, it yields the new `out_buf` contents and the
`(n_in, n_out)` frame counts the call reports. -/
structure FftModel where
  inputFramesNext : Nat
  outputFramesNext : Nat
  inputFramesMax : Nat
  outputFramesMax : Nat
  process : List ℚ → Option Indexing → List ℚ × Nat × Nat

/-- `FixedBuffer<T>` (`src/decoder/fixed_buffer.rs`). -/
structure FixedBuffer where
  inner : List ℚ
  position : Nat

/-- `FixedBuffer::new`. -/
def FixedBuffer.new (defaultVal : ℚ) (n : Nat) : FixedBuffer :=
  { inner := List.replicate n defaultVal, position := 0 }

/-- `FixedBuffer::reset`. -/
def FixedBuffer.reset (b : FixedBuffer) : FixedBuffer := { b with position := 0 }

/-- `FixedBuffer::remaining`. -/
def FixedBuffer.remaining (b : FixedBuffer) : Nat := b.inner.length - b.position

/-- `ResampleDecoderInner<T>` (`src/decoder/resampler.rs:10`). -/
structure ResampleDecoderInner where
  framePosition : Nat
  channels : Nat
  resampler : FftModel
  inBuf : FixedBuffer
  outBuf : List ℚ

/-- `ResampleDecoderInner::flush` (`src/decoder/resampler.rs:68`): if the
input buffer is empty return an empty slice; otherwise run the resampler once
with `partial_len = input_frames_next - position / channels` and return
`&out_buf[..n_out]`.  Returns the updated inner state (the in-place write to
`out_buf`) together with the returned slice. -/
def ResampleDecoderInner.flush (inner : ResampleDecoderInner) :
    ResampleDecoderInner × List ℚ :=
  let inPosition := inner.inBuf.position
  if inPosition = 0 then
    (inner, [])
  else
    let inputFrames := inner.resampler.inputFramesNext
    let partLen := inputFrames - inPosition / inner.channels
    let r := inner.resampler.process inner.inBuf.inner
      (some { inputOffset := 0, outputOffset := 0, partLen := some partLen,
              activeChannelsMask := none })
    ({ inner with outBuf := r.1 }, r.1.take r.2.2)

/-- The `ResampledDecoderImpl<T>` discriminated union. -/
inductive ResampledDecoderImpl where
  | resampled (inner : ResampleDecoderInner)
  | native

/-- `ResamplerSettings` with its `chunk_size` (default 1024). -/
structure ResamplerSettings where
  chunkSize : Nat

/-- `ResampledDecoder<T>` (`src/decoder/resampler.rs:136`). -/
structure ResampledDecoder where
  decoderInner : ResampledDecoderImpl
  inSampleRate : Nat
  outSampleRate : Nat
  channels : Nat
  settings : ResamplerSettings

/-- `ResampledDecoder::new`: starts `Native` with `in_sample_rate` equal to
the output rate. -/
def ResampledDecoder.new (outSampleRate : Nat) (channels : Nat)
    (settings : ResamplerSettings) : ResampledDecoder :=
  { decoderInner := .native
    inSampleRate := outSampleRate
    outSampleRate := outSampleRate
    channels := channels
    settings := settings }

/-- `ResampledDecoder::initialize_resampler`
(`src/decoder/resampler.rs:178`): allocate a new FFT resampler (`mkFft`
stands for the external `Fft::new(in_rate, out_rate, chunk_size, 1, channels,
FixedSync::Both)`) and fresh interleaved buffers sized by its max frame
counts. -/
def ResampledDecoder.initializeResampler (mkFft : Nat → Nat → Nat → Nat → FftModel)
    (d : ResampledDecoder) : ResampledDecoder :=
  let resampler := mkFft d.inSampleRate d.outSampleRate d.settings.chunkSize d.channels
  let nFramesIn := resampler.inputFramesMax
  let nFramesOut := resampler.outputFramesMax
  let inner : ResampleDecoderInner :=
    { channels := d.channels
      inBuf := FixedBuffer.new MID (nFramesIn * d.channels)
      outBuf := List.replicate (nFramesOut * d.channels) MID
      framePosition := 0
      resampler := resampler }
  { d with decoderInner := ResampledDecoderImpl.resampled inner }

/-- `ResampledDecoder::initialize` (`src/decoder/resampler.rs:159`): adopt
the decoder's sample rate; from `Native` allocate a resampler only when the
new input rate differs from the output rate; from `Resampled` reallocate
whenever the input rate changed, otherwise just rewind `frame_position`. -/
def ResampledDecoder.initializeR (mkFft : Nat → Nat → Nat → Nat → FftModel)
    (d : ResampledDecoder) (decoderSampleRate : Nat) : ResampledDecoder :=
  let sampleRateChanged := d.inSampleRate ≠ decoderSampleRate
  let d := { d with inSampleRate := decoderSampleRate }
  match d.decoderInner with
  | .native =>
    if d.inSampleRate ≠ d.outSampleRate then d.initializeResampler mkFft else d
  | .resampled inner =>
    if sampleRateChanged then
      d.initializeResampler mkFft
    else
      { d with decoderInner := .resampled { inner with framePosition := 0 } }

/-- `ResampledDecoder::current` (`src/decoder/resampler.rs:210`): the last
produced block — `out_buf` when `Resampled`, `decoder.current()` when
`Native`. -/
def ResampledDecoder.current (d : ResampledDecoder) (decoder : DecoderS) : List ℚ :=
  match d.decoderInner with
  | .resampled inner => inner.outBuf
  | .native => decoder.current

/-- Whether the `ResampledDecoder` state is `Native`. -/
def ResampledDecoder.isNative (d : ResampledDecoder) : Bool :=
  match d.decoderInner with
  | .native => true
  | .resampled _ => false

/-- `SampleFormat` (`src/output/mod.rs`). -/
inductive SampleFormat where
  | i8 | i16 | i24 | i32 | i64
  | u8 | u16 | u24 | u32 | u64
  | f32 | f64
deriving DecidableEq, Repr

/-- `SupportedBufferSize`. -/
inductive SupportedBufferSize where
  | range (min max : Nat)
  | unknown
deriving DecidableEq, Repr

/-- `SupportedStreamConfig` — the resolved output configuration. -/
structure SupportedStreamConfig where
  channels : Nat
  sampleRate : Nat
  bufferSize : SupportedBufferSize
  sampleFormat : SampleFormat
deriving DecidableEq, Repr

/-- `SupportedStreamConfigRange` — a device-supported configuration range. -/
structure SupportedStreamConfigRange where
  channels : Nat
  minSampleRate : Nat
  maxSampleRate : Nat
  bufferSize : SupportedBufferSize
  sampleFormat : SampleFormat
deriving DecidableEq, Repr

/-- `SupportedStreamConfigRange::with_sample_rate`. -/
def SupportedStreamConfigRange.withSampleRate (r : SupportedStreamConfigRange)
    (sampleRate : Nat) : SupportedStreamConfig :=
  { channels := r.channels
    sampleRate := sampleRate
    bufferSize := r.bufferSize
    sampleFormat := r.sampleFormat }

/-- `RequestedOutputConfig`. -/
structure RequestedOutputConfig where
  sampleRate : Option Nat
  channels : Option Nat
  sampleFormat : Option SampleFormat

/-- `BuildStreamError` (the one inhabited backend error type). -/
inductive BuildStreamErrorT where
  | deviceNotAvailable
  | deviceBusy
  | streamConfigNotSupported
  | invalidArgument
  | streamIdOverflow
  | backendSpecific (msg : String)

/-- A `Device` of the output backend.  The error enums
`DeviceNameError`, `DefaultStreamConfigError` and
`SupportedStreamConfigsError` of `src/output/mod.rs` have no variants, so the
corresponding `Result`s are modelled with the uninhabited `Empty` error. -/
structure DeviceM where
  nameVal : Except Empty String
  defaultOutputConfigVal : Except Empty SupportedStreamConfig
  supportedOutputConfigsVal : Except Empty (List SupportedStreamConfigRange)

/-- A `Host`: default output device and device enumeration (`DevicesError`
also has no variants). -/
structure HostM where
  defaultOutputDeviceVal : Option DeviceM
  outputDevicesVal : Except Empty (List DeviceM)

/-- `AudioOutputError` (`src/output/mod.rs:283`); wrapper variants carry their
source error types, several of which are uninhabited. -/
inductive AudioOutputError where
  | noDefaultDevice
  | outputDeviceConfigError (e : Empty)
  | openStreamError (e : BuildStreamErrorT)
  | startStreamError (e : Empty)
  | unsupportedConfiguration (msg : String)
  | loadDevicesError (e : Empty)
  | loadConfigsError (e : Empty)

/-- Unwrap a `Result` whose error type has no variants (the `?` operator on
such a result can only pass through the `Ok` value). -/
def exceptGet : Except Empty α → α
  | .ok a => a
  | .error e => nomatch e

/-- `OutputBuilder::find_closest_config` (`src/output/mod.rs:434`): fail with
`NoDefaultDevice` when the host has no default output device; resolve the
requested fields against the chosen device's default config; return the
default config when it matches, otherwise the first supported range matching
channels/format and bracketing the requested rate (pinned to that rate),
otherwise fall back to the default config. -/
def OutputBuilder.findClosestConfig (host : HostM) (deviceName : Option String)
    (config : RequestedOutputConfig) : Except AudioOutputError SupportedStreamConfig :=
  match host.defaultOutputDeviceVal with
  | none => .error .noDefaultDevice
  | some defaultDevice =>
    let device :=
      match deviceName with
      | some dn =>
        ((exceptGet host.outputDevicesVal : List DeviceM).find? (fun (d : DeviceM) =>
            match d.nameVal with
            | .ok n => n.trim == dn.trim
            | .error e => nomatch e)).getD defaultDevice
      | none => defaultDevice
    let defaultConfig := exceptGet device.defaultOutputConfigVal
    let channels := config.channels.getD defaultConfig.channels
    let sampleRate := config.sampleRate.getD defaultConfig.sampleRate
    let sampleFormat := config.sampleFormat.getD defaultConfig.sampleFormat
    if defaultConfig.channels = channels ∧ defaultConfig.sampleRate = sampleRate
        ∧ defaultConfig.sampleFormat = sampleFormat then
      .ok defaultConfig
    else
      match (exceptGet device.supportedOutputConfigsVal :
          List SupportedStreamConfigRange).find? (fun c =>
          c.channels == channels && c.sampleFormat == sampleFormat
            && decide (c.minSampleRate ≤ sampleRate)
            && decide (c.maxSampleRate ≥ sampleRate)) with
      | some matchedConfig => .ok (matchedConfig.withSampleRate sampleRate)
      | none => .ok defaultConfig

/-- `OutputSettings` with its user-facing write-timeout duration, in
milliseconds. -/
structure OutputSettings where
  bufferDuration : Nat
deriving DecidableEq, Repr

/-- The state of `AudioOutput<T, B>` relevant to construction: the SPSC ring
buffer is reduced to its capacity in samples (device, callbacks and stream
are external). -/
structure AudioOutputS where
  ringBufCapacity : Nat
  config : SupportedStreamConfig
  settings : OutputSettings
  streamSome : Bool
deriving DecidableEq, Repr

/-- `AudioOutput::new` (`src/output/mod.rs:540`): a fixed
`Duration::from_millis(200)` buffer duration sizes the ring buffer to
`((200 * sample_rate) / 1000) * channels` samples; `settings` is stored but
does not influence the capacity. -/
def AudioOutputS.new (config : SupportedStreamConfig) (settings : OutputSettings) :
    AudioOutputS :=
  let bufferDuration : Nat := 200
  let bufferMs : Nat := bufferDuration
  { ringBufCapacity := ((bufferMs * config.sampleRate) / 1000) * config.channels
    config := config
    settings := settings
    streamSome := false }

/-- Spec-side description of the `(1, 2)` mix result: each source sample
duplicated to L and R and scaled. -/
def dupScale (v : ℚ) : List ℚ → List ℚ
  | [] => []
  | s :: rest => mulAmp s v :: mulAmp s v :: dupScale v rest

theorem writeDup_take_eq (v : ℚ) : ∀ (l buf : List ℚ),
    (writeDup v l buf).take (2 * l.length) = dupScale v l := by
  intro l
  induction l with
  | nil => intro buf; rfl
  | cons s rest ih =>
    intro buf
    have h2 : 2 * (s :: rest).length = 2 * rest.length + 1 + 1 := by
      simp [List.length_cons]; ring
    rw [h2]
    show (mulAmp s v :: mulAmp s v :: writeDup v rest (buf.drop 2)).take
        (2 * rest.length + 1 + 1) = dupScale v (s :: rest)
    rw [List.take_succ_cons, List.take_succ_cons, ih]
    rfl

theorem dupScale_get_even (v : ℚ) : ∀ (l : List ℚ) (i : Nat),
    (dupScale v l).get? (2 * i) = (l.get? i).map (fun s => mulAmp s v) := by
  intro l
  induction l with
  | nil => intro i; simp [dupScale]
  | cons s rest ih =>
    intro i
    cases i with
    | zero => simp [dupScale]
    | succ j =>
      have h2 : 2 * (j + 1) = 2 * j + 1 + 1 := by ring
      rw [h2]
      show (mulAmp s v :: mulAmp s v :: dupScale v rest).get? (2 * j + 1 + 1)
          = ((s :: rest).get? (j + 1)).map (fun s => mulAmp s v)
      rw [List.get?_cons_succ, List.get?_cons_succ, List.get?_cons_succ, ih]

theorem dupScale_get_odd (v : ℚ) : ∀ (l : List ℚ) (i : Nat),
    (dupScale v l).get? (2 * i + 1) = (l.get? i).map (fun s => mulAmp s v) := by
  intro l
  induction l with
  | nil => intro i; simp [dupScale]
  | cons s rest ih =>
    intro i
    cases i with
    | zero => simp [dupScale]
    | succ j =>
      have h2 : 2 * (j + 1) + 1 = 2 * j + 1 + 1 + 1 := by ring
      rw [h2]
      show (mulAmp s v :: mulAmp s v :: dupScale v rest).get? (2 * j + 1 + 1 + 1)
          = ((s :: rest).get? (j + 1)).map (fun s => mulAmp s v)
      rw [List.get?_cons_succ, List.get?_cons_succ, List.get?_cons_succ, ih]

theorem adjustBufferSize_volume (d : DecoderS) (n : Nat) :
    (d.adjustBufferSize n).volume = d.volume := by
  unfold DecoderS.adjustBufferSize; split <;> rfl

theorem adjustBufferSize_sampleBuf (d : DecoderS) (n : Nat) :
    (d.adjustBufferSize n).sampleBuf = d.sampleBuf := by
  unfold DecoderS.adjustBufferSize; split <;> rfl

theorem adjustBufferSize_bufLen (d : DecoderS) (n : Nat) :
    (d.adjustBufferSize n).bufLen = n := by
  unfold DecoderS.adjustBufferSize; split <;> rfl

theorem adjustBufferSize_outputChannels (d : DecoderS) (n : Nat) :
    (d.adjustBufferSize n).outputChannels = d.outputChannels := by
  unfold DecoderS.adjustBufferSize; split <;> rfl

theorem adjustBufferSize_inputChannels (d : DecoderS) (n : Nat) :
    (d.adjustBufferSize n).inputChannels = d.inputChannels := by
  unfold DecoderS.adjustBufferSize; split <;> rfl

theorem adjustBufferSize_sampleRate (d : DecoderS) (n : Nat) :
    (d.adjustBufferSize n).sampleRate = d.sampleRate := by
  unfold DecoderS.adjustBufferSize; split <;> rfl

theorem adjustBufferSize_trackId (d : DecoderS) (n : Nat) :
    (d.adjustBufferSize n).trackId = d.trackId := by
  unfold DecoderS.adjustBufferSize; split <;> rfl

theorem adjustBufferSize_paused (d : DecoderS) (n : Nat) :
    (d.adjustBufferSize n).paused = d.paused := by
  unfold DecoderS.adjustBufferSize; split <;> rfl

theorem adjustBufferSize_buf_length (d : DecoderS) (n : Nat) :
    (d.adjustBufferSize n).buf.length = max n d.buf.length := by
  unfold DecoderS.adjustBufferSize
  split
  · simp; omega
  · simp; omega

theorem processOutput_mono_stereo (d : DecoderS) (p : Packet) (rate ch : Nat)
    (samples : List ℚ)
    (h1 : d.inputChannels = 1) (h2 : d.outputChannels = 2) (h3 : d.sampleRate ≠ 0)
    (hp : p.outcome = .decoded rate ch samples) :
    d.processOutput p =
      .ok { ({ d with sampleBuf := samples }).adjustBufferSize (samples.length * 2) with
            buf := writeDup d.volume samples
              ((({ d with sampleBuf := samples }).adjustBufferSize (samples.length * 2)).buf) } := by
  obtain ⟨buf, sampleBuf, timeBase, bufLen, volume, trackId, inputChannels, outputChannels,
    timestamp, paused, sampleRate, seekRequiredTs, codecResets⟩ := d
  dsimp only at h1 h2 h3 ⊢
  subst h1
  subst h2
  simp [DecoderS.processOutput, hp, h3, adjustBufferSize_volume, adjustBufferSize_sampleBuf]

/-- C6: for a mono source mixed to a stereo output (`input_channels = 1`,
`output_channels = 2`), every frame produced by `process_output` has equal
left and right samples, each the source sample multiplied by the volume
factor. -/
theorem mono_to_stereo_frames_equal (d : DecoderS) (p : Packet) (rate ch : Nat)
    (samples : List ℚ) (d' : DecoderS)
    (h1 : d.inputChannels = 1) (h2 : d.outputChannels = 2) (h3 : d.sampleRate ≠ 0)
    (hp : p.outcome = .decoded rate ch samples)
    (hrun : d.processOutput p = .ok d') :
    d'.current = dupScale d.volume samples
      ∧ (∀ i, (d'.current).get? (2 * i) = (samples.get? i).map (fun s => mulAmp s d.volume))
      ∧ (∀ i, (d'.current).get? (2 * i) = (d'.current).get? (2 * i + 1)) := by
  rw [processOutput_mono_stereo d p rate ch samples h1 h2 h3 hp] at hrun
  have hc : d'.current = dupScale d.volume samples := by
    injection hrun with hx
    rw [← hx]
    simp only [DecoderS.current, adjustBufferSize_bufLen]
    rw [Nat.mul_comm samples.length 2, writeDup_take_eq]
  exact ⟨hc, fun i => by rw [hc, dupScale_get_even],
    fun i => by rw [hc, dupScale_get_even, dupScale_get_odd]⟩

/-- Concrete mono decoder state for exercising the mono→stereo mix. -/
def monoDec : DecoderS :=
  { DecoderS.mk0 2 2 0 ⟨1, 1⟩ with inputChannels := 1, sampleRate := 44100 }

/-- Concrete packet holding two mono samples. -/
def monoPacket : Packet := ⟨0, 0, .decoded 44100 1 [3, 5]⟩

/-- Witness for C6 at a concrete mono decoder and packet. -/
theorem mono_to_stereo_frames_equal_witness :
    monoDec.inputChannels = 1 ∧ monoDec.outputChannels = 2 ∧ monoDec.sampleRate ≠ 0
      ∧ ∃ d', monoDec.processOutput monoPacket = .ok d'
          ∧ d'.current = dupScale monoDec.volume [3, 5] :=
  ⟨rfl, rfl, by decide,
    _, rfl,
    (mono_to_stereo_frames_equal monoDec monoPacket 44100 1 [3, 5] _
      rfl rfl (by decide) rfl rfl).1⟩

/-- C7: when the decoder is paused, `next()` overwrites the entire `buf` with
`MID`, consumes nothing from the demuxer, leaves `timestamp`,
`seek_required_ts`, `sample_rate` and `buf_len` unchanged, and returns
`Ok(Some(current()))`. -/
theorem next_paused_silence (d : DecoderS) (evs : List ReaderEvent) (h : d.paused = true) :
    (d.next evs).2.1 = evs
      ∧ (d.next evs).1.buf = List.replicate d.buf.length MID
      ∧ (d.next evs).1.timestamp = d.timestamp
      ∧ (d.next evs).1.seekRequiredTs = d.seekRequiredTs
      ∧ (d.next evs).1.sampleRate = d.sampleRate
      ∧ (d.next evs).1.bufLen = d.bufLen
      ∧ (d.next evs).2.2 = .ok (some ((d.next evs).1.current)) := by
  simp [DecoderS.next, h]

/-- Concrete paused decoder. -/
def pausedDec : DecoderS :=
  { DecoderS.mk0 1 2 0 ⟨1, 1⟩ with paused := true, buf := [2, 3], bufLen := 2 }

/-- Witness for C7 at a concrete paused decoder. -/
theorem next_paused_silence_witness :
    pausedDec.paused = true
      ∧ (pausedDec.next [ReaderEvent.packet ⟨0, 0, .decoded 1 1 [7]⟩]).2.1
          = [ReaderEvent.packet ⟨0, 0, .decoded 1 1 [7]⟩]
      ∧ (pausedDec.next [ReaderEvent.packet ⟨0, 0, .decoded 1 1 [7]⟩]).1.buf
          = List.replicate pausedDec.buf.length MID :=
  ⟨rfl,
    (next_paused_silence pausedDec [ReaderEvent.packet ⟨0, 0, .decoded 1 1 [7]⟩] rfl).1,
    (next_paused_silence pausedDec [ReaderEvent.packet ⟨0, 0, .decoded 1 1 [7]⟩] rfl).2.1⟩

/-- C8: `AudioOutput::new` sizes the SPSC ring buffer to exactly
`⌊200 × sample_rate / 1000⌋ × channels` samples, independently of the
`settings.buffer_duration` write-timeout value. -/
theorem audioOutput_ring_capacity (config : SupportedStreamConfig) (s1 s2 : OutputSettings) :
    (AudioOutputS.new config s1).ringBufCapacity
        = 200 * config.sampleRate / 1000 * config.channels
      ∧ (AudioOutputS.new config s1).ringBufCapacity
        = (AudioOutputS.new config s2).ringBufCapacity :=
  ⟨rfl, rfl⟩

/-- Concrete decoder for exercising `seek`: 7 ms into a stream whose time
base counts milliseconds. -/
def seekDec : DecoderS := { DecoderS.mk0 1 2 0 ⟨1, 1000⟩ with timestamp := 7 }

/-- Concrete demuxer seek behaviour: every seek is accepted with
`required_ts = 500`. -/
def seekReader : Nat → Except Nat SeekedTo := fun _ => .ok ⟨500⟩

/-- C3 (counterexample): a successful `seek` does not set the decoder's
`timestamp` to the seek target — after seeking to 5000 ms the timestamp is
unchanged and `current_position` still reports the pre-seek 7 ms, not
5000 ms. -/
theorem seek_timestamp_not_set_counterexample :
    (seekDec.seek seekReader 5000).2 = .ok ⟨500⟩
      ∧ (seekDec.seek seekReader 5000).1.timestamp = seekDec.timestamp
      ∧ (seekDec.seek seekReader 5000).1.currentPositionMillis = 7
      ∧ ¬ (seekDec.seek seekReader 5000).1.currentPositionMillis = 5000 :=
  ⟨rfl, rfl, rfl, by decide⟩

/-- C3 (amended): when the demuxer accepts the seek, `Decoder::seek` records
`seek_required_ts = Some(required_ts)`, resets the codec, and returns the
demuxer's result; every other field — in particular `timestamp`, so
`current_position` keeps reporting the pre-seek position until the next
decode — is unchanged. -/
theorem seek_success_records_marker (d : DecoderS) (rs : Nat → Except Nat SeekedTo)
    (time : Nat) (result : SeekedTo) (h : rs time = .ok result) :
    d.seek rs time =
      ({ d with seekRequiredTs := some result.requiredTs,
                codecResets := d.codecResets + 1 }, .ok result) := by
  simp [DecoderS.seek, h]

/-- Witness for the amended C3 at the concrete decoder/reader. -/
theorem seek_success_records_marker_witness :
    seekReader 5000 = .ok ⟨500⟩
      ∧ seekDec.seek seekReader 5000
        = ({ seekDec with seekRequiredTs := some 500, codecResets := 1 }, .ok ⟨500⟩) :=
  ⟨rfl, by rw [seek_success_records_marker seekDec seekReader 5000 ⟨500⟩ rfl]; rfl⟩

/-- A trivial concrete `Fft::new` model: a pass-through resampler whose frame
counts all equal the chunk size. -/
def fftStub (_inRate _outRate chunkSize _channels : Nat) : FftModel :=
  { inputFramesNext := chunkSize
    outputFramesNext := chunkSize
    inputFramesMax := chunkSize
    outputFramesMax := chunkSize
    process := fun inBuf _ => (inBuf, chunkSize, chunkSize) }

/-- A 44.1 kHz-output `ResampledDecoder` taken to 48 kHz and back to
44.1 kHz. -/
def resampledBack : ResampledDecoder :=
  ((ResampledDecoder.new 44100 2 ⟨1024⟩).initializeR fftStub 48000).initializeR fftStub 44100

/-- C1 (counterexample): after `initialize(48000)` followed by
`initialize(44100)` on a 44.1 kHz output, `in_sample_rate()` equals
`out_sample_rate()` yet the state is `Resampled`, not `Native`. -/
theorem resampler_native_counterexample :
    resampledBack.inSampleRate = resampledBack.outSampleRate
      ∧ resampledBack.isNative = false :=
  ⟨rfl, rfl⟩

/-- C1 (amended): a `ResampledDecoder` is constructed `Native` with
`in_sample_rate = out_sample_rate`; `initialize` leaves the state `Native`
exactly when it already was `Native` and the decoder rate equals the output
rate — so once `Resampled`, the state stays `Resampled` even when a later
`initialize` brings `in_sample_rate` back to `out_sample_rate` — and
`current(decoder)` returns `decoder.current()` unchanged whenever the state
is `Native` (and `out_buf` otherwise). -/
theorem resampler_native_characterization (mkFft : Nat → Nat → Nat → Nat → FftModel)
    (d : ResampledDecoder) (rate r ch : Nat) (st : ResamplerSettings) (dec : DecoderS) :
    (ResampledDecoder.new r ch st).isNative = true
      ∧ (ResampledDecoder.new r ch st).inSampleRate = (ResampledDecoder.new r ch st).outSampleRate
      ∧ (d.initializeR mkFft rate).isNative = (d.isNative && (rate == d.outSampleRate))
      ∧ (d.initializeR mkFft rate).inSampleRate = rate
      ∧ (d.initializeR mkFft rate).outSampleRate = d.outSampleRate
      ∧ (match d.decoderInner with
         | .native => d.current dec = dec.current
         | .resampled inner => d.current dec = inner.outBuf) := by
  obtain ⟨di, isr, osr, chs, sts⟩ := d
  refine ⟨rfl, rfl, ?_, ?_, ?_, ?_⟩
  · cases di with
    | native =>
      by_cases h : rate = osr
      · simp [ResampledDecoder.initializeR, ResampledDecoder.isNative, h]
      · simp [ResampledDecoder.initializeR, ResampledDecoder.isNative,
          ResampledDecoder.initializeResampler, h]
    | resampled inner =>
      by_cases h : isr = rate
      · simp [ResampledDecoder.initializeR, ResampledDecoder.isNative, h]
      · simp [ResampledDecoder.initializeR, ResampledDecoder.isNative,
          ResampledDecoder.initializeResampler, h]
  · cases di with
    | native =>
      by_cases h : rate = osr
      · simp [ResampledDecoder.initializeR, h]
      · simp [ResampledDecoder.initializeR, ResampledDecoder.initializeResampler, h]
    | resampled inner =>
      by_cases h : isr = rate
      · simp [ResampledDecoder.initializeR, h]
      · simp [ResampledDecoder.initializeR, ResampledDecoder.initializeResampler, h]
  · cases di with
    | native =>
      by_cases h : rate = osr
      · simp [ResampledDecoder.initializeR, h]
      · simp [ResampledDecoder.initializeR, ResampledDecoder.initializeResampler, h]
    | resampled inner =>
      by_cases h : isr = rate
      · simp [ResampledDecoder.initializeR, h]
      · simp [ResampledDecoder.initializeR, ResampledDecoder.initializeResampler, h]
  · cases di <;> simp [ResampledDecoder.current]

/-- A spy resampler model: `process` reports the `partial_len` it received by
filling the output with it, and claims `(n_in, n_out) = (4, 2)`. -/
def spyFft : FftModel :=
  { inputFramesNext := 4
    outputFramesNext := 4
    inputFramesMax := 4
    outputFramesMax := 4
    process := fun _ idx =>
      match idx with
      | some ix =>
        match ix.partLen with
        | some p => (List.replicate 4 (p : ℚ), 4, 2)
        | none => (List.replicate 4 (0 : ℚ), 4, 2)
      | none => (List.replicate 4 (0 : ℚ), 4, 2) }

/-- A stereo inner resampler state whose input buffer holds one partial frame
(2 of 8 samples, i.e. 1 of 4 frames). -/
def innerPartial : ResampleDecoderInner :=
  { framePosition := 0
    channels := 2
    resampler := spyFft
    inBuf := { inner := [9, 9, 0, 0, 0, 0, 0, 0], position := 2 }
    outBuf := [0, 0, 0, 0] }

/-- C2 (counterexample): `flush` does not run the resampler with
`partial_len = position / channels` and return the first
`n_out × channels` samples of `out_buf`.  With the spy resampler the claim
predicts the call receives `partial_len = 2 / 2 = 1` and `n_out × channels
= 4` samples are returned (`[1, 1, 1, 1]`), but `flush` passes
`input_frames_next - position / channels = 3` and slices `n_out = 2`
samples, yielding `[3, 3]`. -/
theorem flush_partial_len_counterexample :
    (innerPartial.flush).2 = [(3 : ℚ), 3]
      ∧ ¬ ((innerPartial.flush).2 =
            (innerPartial.resampler.process innerPartial.inBuf.inner
                (some { inputOffset := 0, outputOffset := 0,
                        partLen := some (innerPartial.inBuf.position / innerPartial.channels),
                        activeChannelsMask := none })).1.take
              ((innerPartial.resampler.process innerPartial.inBuf.inner
                  (some { inputOffset := 0, outputOffset := 0,
                          partLen := some (innerPartial.inBuf.position / innerPartial.channels),
                          activeChannelsMask := none })).2.2 * innerPartial.channels)) := by
  constructor
  · rfl
  · intro h
    have : [(3 : ℚ), 3] = [(1 : ℚ), 1, 1, 1] := by
      calc [(3 : ℚ), 3] = (innerPartial.flush).2 := rfl
        _ = _ := h
        _ = [(1 : ℚ), 1, 1, 1] := rfl
    simp at this

/-- C2 (amended): if the `ResampledDecoder` input buffer is empty
(`position == 0`), `flush()` returns an empty slice with the state unchanged
and — the result being fixed for every resampler model — without invoking the
resampler; if it holds a partial frame (`position > 0`), `flush()` runs the
resampler exactly once with the partial-length indication
`partial_len = input_frames_next - position / channels` and returns the first
`n_out` samples of `out_buf`, where `n_out` is the output-frame count the
resampler reports. -/
theorem flush_characterization (inner : ResampleDecoderInner) :
    (inner.inBuf.position = 0 → inner.flush = (inner, []))
      ∧ (inner.inBuf.position ≠ 0 →
          inner.flush =
            (let r := inner.resampler.process inner.inBuf.inner
                (some { inputOffset := 0, outputOffset := 0,
                        partLen := some (inner.resampler.inputFramesNext
                          - inner.inBuf.position / inner.channels),
                        activeChannelsMask := none });
             ({ inner with outBuf := r.1 }, r.1.take r.2.2))) := by
  constructor
  · intro h
    simp [ResampleDecoderInner.flush, h]
  · intro h
    simp [ResampleDecoderInner.flush, h]

/-- An inner resampler state with an empty input buffer. -/
def innerEmpty : ResampleDecoderInner :=
  { innerPartial with inBuf := { inner := [0, 0, 0, 0, 0, 0, 0, 0], position := 0 } }

/-- Witness for the amended C2: both branches at concrete states. -/
theorem flush_characterization_witness :
    (innerEmpty.inBuf.position = 0 ∧ innerEmpty.flush = (innerEmpty, []))
      ∧ (innerPartial.inBuf.position ≠ 0 ∧ (innerPartial.flush).2 = [(3 : ℚ), 3]) :=
  ⟨⟨rfl, (flush_characterization innerEmpty).1 rfl⟩,
   ⟨by decide, by rw [(flush_characterization innerPartial).2 (by decide)]; rfl⟩⟩

/-- C9: `find_closest_config` never fails merely because no supported
configuration matches: when the host has a default output device the result
is always `Ok` (the default config when the requested triple matches it, a
matching supported range pinned to the requested rate, or the default config
as fallback); its only error outcome is `NoDefaultDevice` — the device and
config enumeration error types have no inhabitants. -/
theorem findClosestConfig_total (host : HostM) (deviceName : Option String)
    (config : RequestedOutputConfig) :
    match host.defaultOutputDeviceVal with
    | none => OutputBuilder.findClosestConfig host deviceName config = .error .noDefaultDevice
    | some _ => ∃ c, OutputBuilder.findClosestConfig host deviceName config = .ok c := by
  cases h : host.defaultOutputDeviceVal with
  | none => simp [OutputBuilder.findClosestConfig, h]
  | some dd =>
    unfold OutputBuilder.findClosestConfig
    rw [h]
    dsimp only
    split
    · exact ⟨_, rfl⟩
    · split
      · exact ⟨_, rfl⟩
      · exact ⟨_, rfl⟩

/-- An event the post-seek packet loop passes over without decoding: a packet
of another track, or a packet of the decoder's track whose timestamp is below
the required seek timestamp. -/
def skippable (trackId requiredTs : Nat) : ReaderEvent → Bool
  | .packet p => (p.trackId != trackId) || decide (p.ts < requiredTs)
  | _ => false

theorem dropWhile_head_false {α} (q : α → Bool) :
    ∀ (l : List α) (a : α) (l' : List α), l.dropWhile q = a :: l' → q a = false := by
  intro l
  induction l with
  | nil => intro a l' h; simp [List.dropWhile] at h
  | cons x xs ih =>
    intro a l' h
    rw [List.dropWhile_cons] at h
    by_cases hx : q x = true
    · rw [if_pos hx] at h
      exact ih a l' h
    · rw [if_neg hx] at h
      injection h with h1 _
      subst h1
      simpa using hx

/-- C4: while `seek_required_ts = Some(t)`, `next()`'s packet loop skips every
matching packet with `ts < t` (and packets of other tracks), and when the
remaining stream starts with a matching packet it has `ts ≥ t`, the marker is
cleared, and that packet is the one decoded — the loop proceeds exactly as it
would with no marker on that packet. -/
theorem nextLoop_seek_skips (d : DecoderS) (t : Nat) (evs : List ReaderEvent)
    (h : d.seekRequiredTs = some t) :
    d.nextLoop evs = d.nextLoop (evs.dropWhile (skippable d.trackId t))
      ∧ ∀ p rest, evs.dropWhile (skippable d.trackId t) = ReaderEvent.packet p :: rest →
          p.trackId = d.trackId ∧ t ≤ p.ts
            ∧ d.nextLoop evs
              = DecoderS.nextLoop { d with seekRequiredTs := none }
                  (ReaderEvent.packet p :: rest) := by
  have skip_eq : d.nextLoop evs = d.nextLoop (evs.dropWhile (skippable d.trackId t)) := by
    induction evs with
    | nil => rfl
    | cons e rest ih =>
      cases e with
      | packet p =>
        by_cases htid : p.trackId = d.trackId
        · by_cases hts : p.ts < t
          · have hs : skippable d.trackId t (ReaderEvent.packet p) = true := by
              simp [skippable, hts]
            rw [List.dropWhile_cons, if_pos hs]
            have hstep : d.nextLoop (ReaderEvent.packet p :: rest) = d.nextLoop rest := by
              simp [DecoderS.nextLoop, htid, h, hts]
            rw [hstep, ih]
          · have hs : skippable d.trackId t (ReaderEvent.packet p) = false := by
              simp [skippable, htid, hts]
            rw [List.dropWhile_cons, if_neg (by simp [hs])]
        · have hs : skippable d.trackId t (ReaderEvent.packet p) = true := by
            simp [skippable, htid]
          rw [List.dropWhile_cons, if_pos hs]
          have hstep : d.nextLoop (ReaderEvent.packet p :: rest) = d.nextLoop rest := by
            simp [DecoderS.nextLoop, htid]
          rw [hstep, ih]
      | resetRequired =>
        rw [List.dropWhile_cons, if_neg (by simp [skippable])]
      | otherError =>
        rw [List.dropWhile_cons, if_neg (by simp [skippable])]
  refine ⟨skip_eq, ?_⟩
  intro p rest heq
  have hfalse : skippable d.trackId t (ReaderEvent.packet p) = false :=
    dropWhile_head_false _ evs _ _ heq
  have htid : p.trackId = d.trackId := by
    by_contra hc
    simp [skippable, hc] at hfalse
  have hts : t ≤ p.ts := by
    by_contra hc
    simp [skippable, Nat.lt_of_not_le hc] at hfalse
  refine ⟨htid, hts, ?_⟩
  rw [skip_eq, heq]
  have hlt : ¬ p.ts < t := Nat.not_lt.mpr hts
  simp [DecoderS.nextLoop, htid, h, hlt]

/-- Concrete post-seek decoder with `seek_required_ts = Some 10`. -/
def seekSkipDec : DecoderS := { DecoderS.mk0 1 2 1 ⟨1, 1⟩ with seekRequiredTs := some 10 }

/-- Concrete packet stream: an early matching packet, a foreign-track packet,
then a matching packet past the seek target. -/
def seekSkipEvents : List ReaderEvent :=
  [ReaderEvent.packet ⟨1, 5, .decoded 44100 2 [1, 1]⟩,
   ReaderEvent.packet ⟨2, 99, .decoded 44100 2 [1, 1]⟩,
   ReaderEvent.packet ⟨1, 12, .decoded 44100 2 [1, 1]⟩]

/-- Witness for C4 at the concrete post-seek decoder and stream. -/
theorem nextLoop_seek_skips_witness :
    seekSkipDec.seekRequiredTs = some 10
      ∧ seekSkipDec.nextLoop seekSkipEvents
        = seekSkipDec.nextLoop (seekSkipEvents.dropWhile (skippable seekSkipDec.trackId 10)) :=
  ⟨rfl, (nextLoop_seek_skips seekSkipDec 10 seekSkipEvents rfl).1⟩

theorem writeDup_length (v : ℚ) : ∀ (l buf : List ℚ),
    (writeDup v l buf).length = 2 * l.length + (buf.length - 2 * l.length) := by
  intro l
  induction l with
  | nil => intro buf; simp [writeDup]
  | cons s rest ih =>
    intro buf
    have hd : (buf.drop 2).length = buf.length - 2 := by simp
    simp only [writeDup, List.length_cons, ih, hd]
    omega

theorem writeCopy_length (v : ℚ) : ∀ (l buf : List ℚ),
    (writeCopy v l buf).length = l.length + (buf.length - l.length) := by
  intro l
  induction l with
  | nil => intro buf; simp [writeCopy]
  | cons s rest ih =>
    intro buf
    have hd : (buf.drop 1).length = buf.length - 1 := by simp
    simp only [writeCopy, List.length_cons, ih, hd]
    omega

/-- Well-formedness of a reader event with respect to the decoder's track: a
decodable packet of that track reports `c` channels and an interleaved sample
count divisible by `c`. -/
def goodEvent (tid c : Nat) : ReaderEvent → Prop
  | .packet p =>
    p.trackId = tid →
      ∀ rate ch samples, p.outcome = DecodeOutcome.decoded rate ch samples →
        ch = c ∧ samples.length % c = 0
  | _ => True

theorem processOutput_stereo_inv (c : Nat) (hc : c = 1 ∨ c = 2)
    (d : DecoderS) (p : Packet) (d' : DecoderS)
    (hout : d.outputChannels = 2)
    (hlen : d.buf.length % 2 = 0)
    (hch : d.sampleRate = 0 ∨ d.inputChannels = c)
    (hgood : ∀ rate ch samples, p.outcome = DecodeOutcome.decoded rate ch samples →
        ch = c ∧ samples.length % c = 0)
    (hrun : d.processOutput p = .ok d') :
    d'.outputChannels = 2 ∧ d'.buf.length % 2 = 0
      ∧ (d'.sampleRate = 0 ∨ d'.inputChannels = c)
      ∧ d'.trackId = d.trackId ∧ d'.paused = d.paused := by
  obtain ⟨buf, sampleBuf, timeBase, bufLen, volume, trackId, inputChannels, outputChannels,
    timestamp, paused, sampleRate, seekRequiredTs, codecResets⟩ := d
  dsimp only at hout hlen hch ⊢
  subst hout
  obtain ⟨ptid, pts, pout⟩ := p
  cases pout with
  | decodeError => simp [DecoderS.processOutput] at hrun
  | resetRequired => simp [DecoderS.processOutput] at hrun
  | otherError => simp [DecoderS.processOutput] at hrun
  | decoded rate ch samples =>
    obtain ⟨hcc, hsmod⟩ := hgood rate ch samples rfl
    subst hcc
    by_cases hsr : sampleRate = 0
    · rcases hc with rfl | rfl
      · simp [DecoderS.processOutput, hsr] at hrun
        subst hrun
        dsimp only
        refine ⟨by rw [adjustBufferSize_outputChannels], ?_,
          Or.inr (by rw [adjustBufferSize_inputChannels]),
          by rw [adjustBufferSize_trackId], by rw [adjustBufferSize_paused]⟩
        rw [writeDup_length, adjustBufferSize_buf_length]
        simp only [adjustBufferSize_sampleBuf]
        rcases Nat.le_total (samples.length * 2) buf.length with hle | hle
        · rw [Nat.max_eq_right hle]; omega
        · rw [Nat.max_eq_left hle]; omega
      · simp [DecoderS.processOutput, hsr] at hrun
        subst hrun
        dsimp only
        refine ⟨by rw [adjustBufferSize_outputChannels], ?_,
          Or.inr (by rw [adjustBufferSize_inputChannels]),
          by rw [adjustBufferSize_trackId], by rw [adjustBufferSize_paused]⟩
        rw [writeCopy_length, adjustBufferSize_buf_length]
        simp only [adjustBufferSize_sampleBuf]
        rcases Nat.le_total samples.length buf.length with hle | hle
        · rw [Nat.max_eq_right hle]; omega
        · rw [Nat.max_eq_left hle]; omega
    · have hic : inputChannels = ch := by
        rcases hch with h0 | h0
        · exact absurd h0 hsr
        · exact h0
      subst hic
      rcases hc with rfl | rfl
      · simp [DecoderS.processOutput, hsr] at hrun
        subst hrun
        dsimp only
        refine ⟨by rw [adjustBufferSize_outputChannels], ?_,
          Or.inr (by rw [adjustBufferSize_inputChannels]),
          by rw [adjustBufferSize_trackId], by rw [adjustBufferSize_paused]⟩
        rw [writeDup_length, adjustBufferSize_buf_length]
        simp only [adjustBufferSize_sampleBuf]
        rcases Nat.le_total (samples.length * 2) buf.length with hle | hle
        · rw [Nat.max_eq_right hle]; omega
        · rw [Nat.max_eq_left hle]; omega
      · simp [DecoderS.processOutput, hsr] at hrun
        subst hrun
        dsimp only
        refine ⟨by rw [adjustBufferSize_outputChannels], ?_,
          Or.inr (by rw [adjustBufferSize_inputChannels]),
          by rw [adjustBufferSize_trackId], by rw [adjustBufferSize_paused]⟩
        rw [writeCopy_length, adjustBufferSize_buf_length]
        simp only [adjustBufferSize_sampleBuf]
        rcases Nat.le_total samples.length buf.length with hle | hle
        · rw [Nat.max_eq_right hle]; omega
        · rw [Nat.max_eq_left hle]; omega

theorem nextLoop_stereo_inv (c : Nat) (hc : c = 1 ∨ c = 2) :
    ∀ (evs : List ReaderEvent) (d d' : DecoderS) (evs' : List ReaderEvent)
      (r : Except DecoderErr (Option Unit)),
      d.outputChannels = 2 → d.buf.length % 2 = 0 →
      (d.sampleRate = 0 ∨ d.inputChannels = c) →
      (∀ e ∈ evs, goodEvent d.trackId c e) →
      d.nextLoop evs = (d', evs', r) →
      d'.outputChannels = 2 ∧ d'.buf.length % 2 = 0
        ∧ (d'.sampleRate = 0 ∨ d'.inputChannels = c)
        ∧ d'.trackId = d.trackId ∧ d'.paused = d.paused
        ∧ (∀ e ∈ evs', goodEvent d.trackId c e) := by
  intro evs
  induction evs with
  | nil =>
    intro d d' evs' r hout hlen hch hgood hrun
    simp only [DecoderS.nextLoop, Prod.mk.injEq] at hrun
    obtain ⟨rfl, rfl, rfl⟩ := hrun
    exact ⟨hout, hlen, hch, rfl, rfl, by intro e he; cases he⟩
  | cons e rest ih =>
    intro d d' evs' r hout hlen hch hgood hrun
    cases e with
    | resetRequired =>
      simp only [DecoderS.nextLoop, Prod.mk.injEq] at hrun
      obtain ⟨rfl, rfl, rfl⟩ := hrun
      exact ⟨hout, hlen, hch, rfl, rfl, fun e he => hgood e (List.Mem.tail _ he)⟩
    | otherError =>
      simp only [DecoderS.nextLoop, Prod.mk.injEq] at hrun
      obtain ⟨rfl, rfl, rfl⟩ := hrun
      exact ⟨hout, hlen, hch, rfl, rfl, fun e he => hgood e (List.Mem.tail _ he)⟩
    | packet p =>
      by_cases htid : p.trackId = d.trackId
      · cases hm : d.seekRequiredTs with
        | some t =>
          by_cases hts : p.ts < t
          · rw [show d.nextLoop (ReaderEvent.packet p :: rest) = d.nextLoop rest from by
              simp [DecoderS.nextLoop, htid, hm, hts]] at hrun
            exact ih d d' evs' r hout hlen hch (fun e he => hgood e (List.Mem.tail _ he)) hrun
          · have hred : d.nextLoop (ReaderEvent.packet p :: rest)
                = (match DecoderS.processOutput
                      { d with seekRequiredTs := none, timestamp := p.ts } p with
                   | .ok d2 => (d2, rest, .ok (some ()))
                   | .error .recoverable =>
                     DecoderS.nextLoop { d with seekRequiredTs := none, timestamp := p.ts } rest
                   | .error e => ({ d with seekRequiredTs := none, timestamp := p.ts },
                       rest, .error e)) := by
              simp [DecoderS.nextLoop, htid, hm, hts]
            rw [hred] at hrun
            have hgp : ∀ rate ch samples,
                p.outcome = DecodeOutcome.decoded rate ch samples →
                  ch = c ∧ samples.length % c = 0 :=
              hgood (ReaderEvent.packet p) (List.mem_cons_self _ _) htid
            cases hpo : DecoderS.processOutput
                { d with seekRequiredTs := none, timestamp := p.ts } p with
            | ok d2 =>
              rw [hpo] at hrun
              simp only [Prod.mk.injEq] at hrun
              obtain ⟨rfl, rfl, rfl⟩ := hrun
              have hinv := processOutput_stereo_inv c hc
                { d with seekRequiredTs := none, timestamp := p.ts } p d2
                hout hlen hch hgp hpo
              exact ⟨hinv.1, hinv.2.1, hinv.2.2.1, hinv.2.2.2.1, hinv.2.2.2.2,
                fun e he => hgood e (List.Mem.tail _ he)⟩
            | error err =>
              rw [hpo] at hrun
              cases err with
              | recoverable =>
                simp only at hrun
                exact ih { d with seekRequiredTs := none, timestamp := p.ts } d' evs' r
                  hout hlen hch (fun e he => hgood e (List.Mem.tail _ he)) hrun
              | noTracks =>
                simp only [Prod.mk.injEq] at hrun
                obtain ⟨rfl, rfl, rfl⟩ := hrun
                exact ⟨hout, hlen, hch, rfl, rfl, fun e he => hgood e (List.Mem.tail _ he)⟩
              | formatNotFound =>
                simp only [Prod.mk.injEq] at hrun
                obtain ⟨rfl, rfl, rfl⟩ := hrun
                exact ⟨hout, hlen, hch, rfl, rfl, fun e he => hgood e (List.Mem.tail _ he)⟩
              | unsupportedCodec =>
                simp only [Prod.mk.injEq] at hrun
                obtain ⟨rfl, rfl, rfl⟩ := hrun
                exact ⟨hout, hlen, hch, rfl, rfl, fun e he => hgood e (List.Mem.tail _ he)⟩
              | unsupportedFormat =>
                simp only [Prod.mk.injEq] at hrun
                obtain ⟨rfl, rfl, rfl⟩ := hrun
                exact ⟨hout, hlen, hch, rfl, rfl, fun e he => hgood e (List.Mem.tail _ he)⟩
              | decodeError =>
                simp only [Prod.mk.injEq] at hrun
                obtain ⟨rfl, rfl, rfl⟩ := hrun
                exact ⟨hout, hlen, hch, rfl, rfl, fun e he => hgood e (List.Mem.tail _ he)⟩
              | resetRequired =>
                simp only [Prod.mk.injEq] at hrun
                obtain ⟨rfl, rfl, rfl⟩ := hrun
                exact ⟨hout, hlen, hch, rfl, rfl, fun e he => hgood e (List.Mem.tail _ he)⟩
        | none =>
          have hred : d.nextLoop (ReaderEvent.packet p :: rest)
              = (match DecoderS.processOutput { d with timestamp := p.ts } p with
                 | .ok d2 => (d2, rest, .ok (some ()))
                 | .error .recoverable =>
                   DecoderS.nextLoop { d with timestamp := p.ts } rest
                 | .error e => ({ d with timestamp := p.ts }, rest, .error e)) := by
            simp [DecoderS.nextLoop, htid, hm]
          rw [hred] at hrun
          have hgp : ∀ rate ch samples,
              p.outcome = DecodeOutcome.decoded rate ch samples →
                ch = c ∧ samples.length % c = 0 :=
            hgood (ReaderEvent.packet p) (List.mem_cons_self _ _) htid
          cases hpo : DecoderS.processOutput { d with timestamp := p.ts } p with
          | ok d2 =>
            rw [hpo] at hrun
            simp only [Prod.mk.injEq] at hrun
            obtain ⟨rfl, rfl, rfl⟩ := hrun
            have hinv := processOutput_stereo_inv c hc
              { d with timestamp := p.ts } p d2 hout hlen hch hgp hpo
            exact ⟨hinv.1, hinv.2.1, hinv.2.2.1, hinv.2.2.2.1, hinv.2.2.2.2,
              fun e he => hgood e (List.Mem.tail _ he)⟩
          | error err =>
            rw [hpo] at hrun
            cases err with
            | recoverable =>
              simp only at hrun
              exact ih { d with timestamp := p.ts } d' evs' r
                hout hlen hch (fun e he => hgood e (List.Mem.tail _ he)) hrun
            | noTracks =>
              simp only [Prod.mk.injEq] at hrun
              obtain ⟨rfl, rfl, rfl⟩ := hrun
              exact ⟨hout, hlen, hch, rfl, rfl, fun e he => hgood e (List.Mem.tail _ he)⟩
            | formatNotFound =>
              simp only [Prod.mk.injEq] at hrun
              obtain ⟨rfl, rfl, rfl⟩ := hrun
              exact ⟨hout, hlen, hch, rfl, rfl, fun e he => hgood e (List.Mem.tail _ he)⟩
            | unsupportedCodec =>
              simp only [Prod.mk.injEq] at hrun
              obtain ⟨rfl, rfl, rfl⟩ := hrun
              exact ⟨hout, hlen, hch, rfl, rfl, fun e he => hgood e (List.Mem.tail _ he)⟩
            | unsupportedFormat =>
              simp only [Prod.mk.injEq] at hrun
              obtain ⟨rfl, rfl, rfl⟩ := hrun
              exact ⟨hout, hlen, hch, rfl, rfl, fun e he => hgood e (List.Mem.tail _ he)⟩
            | decodeError =>
              simp only [Prod.mk.injEq] at hrun
              obtain ⟨rfl, rfl, rfl⟩ := hrun
              exact ⟨hout, hlen, hch, rfl, rfl, fun e he => hgood e (List.Mem.tail _ he)⟩
            | resetRequired =>
              simp only [Prod.mk.injEq] at hrun
              obtain ⟨rfl, rfl, rfl⟩ := hrun
              exact ⟨hout, hlen, hch, rfl, rfl, fun e he => hgood e (List.Mem.tail _ he)⟩
      · rw [show d.nextLoop (ReaderEvent.packet p :: rest) = d.nextLoop rest from by
          simp [DecoderS.nextLoop, htid]] at hrun
        exact ih d d' evs' r hout hlen hch (fun e he => hgood e (List.Mem.tail _ he)) hrun

theorem next_stereo_inv (c : Nat) (hc : c = 1 ∨ c = 2)
    (d : DecoderS) (evs : List ReaderEvent) (d' : DecoderS) (evs' : List ReaderEvent)
    (r : Except DecoderErr (Option (List ℚ)))
    (hout : d.outputChannels = 2) (hlen : d.buf.length % 2 = 0)
    (hch : d.sampleRate = 0 ∨ d.inputChannels = c)
    (hgood : ∀ e ∈ evs, goodEvent d.trackId c e)
    (hrun : d.next evs = (d', evs', r)) :
    d'.outputChannels = 2 ∧ d'.buf.length % 2 = 0
      ∧ (d'.sampleRate = 0 ∨ d'.inputChannels = c)
      ∧ d'.trackId = d.trackId ∧ d'.paused = d.paused
      ∧ (∀ e ∈ evs', goodEvent d.trackId c e) := by
  unfold DecoderS.next at hrun
  by_cases hp : d.paused
  · rw [if_pos hp] at hrun
    simp only [Prod.mk.injEq] at hrun
    obtain ⟨rfl, rfl, rfl⟩ := hrun
    refine ⟨hout, ?_, hch, rfl, rfl, hgood⟩
    simpa using hlen
  · rw [if_neg hp] at hrun
    rcases hnl : d.nextLoop evs with ⟨da, evsa, ra⟩
    rw [hnl] at hrun
    have hinv := nextLoop_stereo_inv c hc evs d da evsa ra hout hlen hch hgood hnl
    cases ra with
    | ok oo =>
      cases oo with
      | some u =>
        simp only [Prod.mk.injEq] at hrun
        obtain ⟨rfl, rfl, rfl⟩ := hrun
        exact hinv
      | none =>
        simp only [Prod.mk.injEq] at hrun
        obtain ⟨rfl, rfl, rfl⟩ := hrun
        exact hinv
    | error e =>
      simp only [Prod.mk.injEq] at hrun
      obtain ⟨rfl, rfl, rfl⟩ := hrun
      exact hinv

theorem initializeLoop_skipped_even (c : Nat) (hc : c = 1 ∨ c = 2) (origVolume : ℚ) :
    ∀ (fuel : Nat) (d : DecoderS) (evs : List ReaderEvent) (sk : Nat)
      (d' : DecoderS) (evs' : List ReaderEvent) (sk' : Nat),
      d.outputChannels = 2 → d.buf.length % 2 = 0 →
      (d.sampleRate = 0 ∨ d.inputChannels = c) →
      (∀ e ∈ evs, goodEvent d.trackId c e) →
      sk % 2 = 0 →
      DecoderS.initializeLoop origVolume .trimSilence fuel d evs sk
        = some (.ok (d', evs', sk')) →
      sk' % 2 = 0 := by
  intro fuel
  induction fuel with
  | zero =>
    intro d evs sk d' evs' sk' _ _ _ _ _ hrun
    simp [DecoderS.initializeLoop] at hrun
  | succ fuel ih =>
    intro d evs sk d' evs' sk' hout hlen hch hgood hsk hrun
    rw [DecoderS.initializeLoop] at hrun
    rcases hnx : d.next evs with ⟨d1, evs1, rr⟩
    rw [hnx] at hrun
    cases rr with
    | error e => simp at hrun
    | ok ov =>
      dsimp only at hrun
      rw [if_neg (by decide : ¬ (InitializeOpt.trimSilence = InitializeOpt.preserveSilence))]
        at hrun
      obtain ⟨hout1, hlen1, hch1, htid1, hp1, hgood1⟩ :=
        next_stereo_inv c hc d evs d1 evs1 (.ok ov) hout hlen hch hgood hnx
      by_cases htb : d1.timeBase.denom = 1
      · rw [if_pos htb] at hrun
        cases hfi : ({ d1 with timeBase := (⟨1, d1.sampleRate⟩ : TimeBase) }).buf.findIdx?
            (fun s => s != MID) with
        | some index =>
          rw [hfi] at hrun
          dsimp only at hrun
          simp only [Option.some.injEq, Except.ok.injEq, Prod.mk.injEq] at hrun
          obtain ⟨-, -, hsk'⟩ := hrun
          by_cases hodd : index % 2 = 1
          · rw [if_pos ⟨hout1, hodd⟩] at hsk'
            omega
          · rw [if_neg (fun hco => hodd hco.2)] at hsk'
            omega
        | none =>
          rw [hfi] at hrun
          dsimp only at hrun
          refine ih { d1 with timeBase := (⟨1, d1.sampleRate⟩ : TimeBase) } evs1 _ d' evs' sk'
            hout1 hlen1 hch1 (fun e he => htid1.symm ▸ hgood1 e he) ?_ hrun
          omega
      · rw [if_neg htb] at hrun
        cases hfi : d1.buf.findIdx? (fun s => s != MID) with
        | some index =>
          rw [hfi] at hrun
          dsimp only at hrun
          simp only [Option.some.injEq, Except.ok.injEq, Prod.mk.injEq] at hrun
          obtain ⟨-, -, hsk'⟩ := hrun
          by_cases hodd : index % 2 = 1
          · rw [if_pos ⟨hout1, hodd⟩] at hsk'
            omega
          · rw [if_neg (fun hco => hodd hco.2)] at hsk'
            omega
        | none =>
          rw [hfi] at hrun
          dsimp only at hrun
          refine ih d1 evs1 _ d' evs' sk'
            hout1 hlen1 hch1 (fun e he => htid1.symm ▸ hgood1 e he) ?_ hrun
          omega

/-- C5: during leading-silence trimming at decoder initialization, a stereo
output (`output_channels = 2`) always skips an even count of silent samples:
the trim index is backed up by one when the first non-silent sample lands on
an odd index, and every fully-silent block contributes an even sample
count. -/
theorem stereo_skipped_even (c tid fuel : Nat) (v : ℚ) (tb : TimeBase)
    (evs : List ReaderEvent) (hc : c = 1 ∨ c = 2)
    (hgood : ∀ e ∈ evs, goodEvent tid c e)
    (sk : Nat)
    (hrun : ∃ d' evs', (DecoderS.mk0 v 2 tid tb).initializeD .trimSilence fuel evs
        = some (.ok (d', evs', sk))) :
    sk % 2 = 0 := by
  obtain ⟨d', evs', hrun⟩ := hrun
  unfold DecoderS.initializeD at hrun
  dsimp only at hrun
  rw [if_pos rfl] at hrun
  exact initializeLoop_skipped_even c hc v fuel
    { DecoderS.mk0 v 2 tid tb with volume := IDENTITY } evs 0 d' evs' sk
    rfl rfl (Or.inl rfl) hgood rfl hrun

/-- Concrete gapless-trimming stream: one stereo packet, three leading silent
samples, first non-silent sample at odd index 3. -/
def trimEvents : List ReaderEvent :=
  [ReaderEvent.packet ⟨7, 0, .decoded 44100 2 [0, 0, 0, 5]⟩]

theorem trimEvents_good : ∀ e ∈ trimEvents, goodEvent 7 2 e := by
  intro e he
  simp only [trimEvents, List.mem_singleton] at he
  subst he
  intro _ rate ch samples hps
  injection hps with h1 h2 h3
  subst h2
  subst h3
  exact ⟨rfl, by decide⟩

/-- The decoder state after the witness trimming run. -/
def trimmedDec : DecoderS :=
  { buf := [0, 0, 0, 5], sampleBuf := [0, 0, 0, 5], timeBase := ⟨1, 44100⟩, bufLen := 2,
    volume := 0, trackId := 7, inputChannels := 2, outputChannels := 2, timestamp := 0,
    paused := false, sampleRate := 44100, seekRequiredTs := none, codecResets := 0 }

/-- Witness for C5: a volume-0 stereo decoder over `trimEvents` skips exactly
2 samples (index 3 backed up to 2), an even count. -/
theorem stereo_skipped_even_witness :
    (∃ d' evs', (DecoderS.mk0 0 2 7 ⟨1, 1⟩).initializeD .trimSilence 1 trimEvents
        = some (.ok (d', evs', 2)))
      ∧ 2 % 2 = 0 :=
  ⟨⟨trimmedDec, [], by with_unfolding_all rfl⟩,
    stereo_skipped_even 2 7 1 0 ⟨1, 1⟩ trimEvents (Or.inr rfl) trimEvents_good 2
      ⟨trimmedDec, [], by with_unfolding_all rfl⟩⟩

theorem writeAvg_length (v : ℚ) : (l buf : List ℚ) →
    (writeAvg v l buf).length = l.length / 2 + (buf.length - l.length / 2)
  | [], buf => by simp [writeAvg]
  | [s], buf => by simp [writeAvg]
  | s0 :: s1 :: rest, buf => by
    have ih := writeAvg_length v rest (buf.drop 1)
    simp only [writeAvg, List.length_cons, List.length_drop] at ih ⊢
    omega

theorem processOutput_bufLen_le (d : DecoderS) (p : Packet) (d' : DecoderS)
    (hrun : d.processOutput p = .ok d') : d'.bufLen ≤ d'.buf.length := by
  unfold DecoderS.processOutput at hrun
  split at hrun
  · exact absurd hrun (by simp)
  · exact absurd hrun (by simp)
  · exact absurd hrun (by simp)
  · dsimp only at hrun
    split at hrun
    · exact absurd hrun (by simp)
    · split at hrun
      · injection hrun with hx
        subst hx
        dsimp only
        rw [adjustBufferSize_bufLen, writeDup_length, adjustBufferSize_sampleBuf]
        dsimp only
        omega
      · injection hrun with hx
        subst hx
        dsimp only
        rw [adjustBufferSize_bufLen, writeAvg_length, adjustBufferSize_sampleBuf]
        dsimp only
        omega
      · injection hrun with hx
        subst hx
        dsimp only
        rw [adjustBufferSize_bufLen, writeCopy_length, adjustBufferSize_sampleBuf]
        dsimp only
        omega

theorem nextLoop_bufLen_le :
    ∀ (evs : List ReaderEvent) (d d' : DecoderS) (evs' : List ReaderEvent)
      (r : Except DecoderErr (Option Unit)),
      d.bufLen ≤ d.buf.length → d.nextLoop evs = (d', evs', r) →
      d'.bufLen ≤ d'.buf.length := by
  intro evs
  induction evs with
  | nil =>
    intro d d' evs' r hbl hrun
    simp only [DecoderS.nextLoop, Prod.mk.injEq] at hrun
    obtain ⟨rfl, rfl, rfl⟩ := hrun
    exact hbl
  | cons e rest ih =>
    intro d d' evs' r hbl hrun
    cases e with
    | resetRequired =>
      simp only [DecoderS.nextLoop, Prod.mk.injEq] at hrun
      obtain ⟨rfl, rfl, rfl⟩ := hrun
      exact hbl
    | otherError =>
      simp only [DecoderS.nextLoop, Prod.mk.injEq] at hrun
      obtain ⟨rfl, rfl, rfl⟩ := hrun
      exact hbl
    | packet p =>
      by_cases htid : p.trackId = d.trackId
      · cases hm : d.seekRequiredTs with
        | some t =>
          by_cases hts : p.ts < t
          · rw [show d.nextLoop (ReaderEvent.packet p :: rest) = d.nextLoop rest from by
              simp [DecoderS.nextLoop, htid, hm, hts]] at hrun
            exact ih d d' evs' r hbl hrun
          · have hred : d.nextLoop (ReaderEvent.packet p :: rest)
                = (match DecoderS.processOutput
                      { d with seekRequiredTs := none, timestamp := p.ts } p with
                   | .ok d2 => (d2, rest, .ok (some ()))
                   | .error .recoverable =>
                     DecoderS.nextLoop { d with seekRequiredTs := none, timestamp := p.ts } rest
                   | .error e => ({ d with seekRequiredTs := none, timestamp := p.ts },
                       rest, .error e)) := by
              simp [DecoderS.nextLoop, htid, hm, hts]
            rw [hred] at hrun
            cases hpo : DecoderS.processOutput
                { d with seekRequiredTs := none, timestamp := p.ts } p with
            | ok d2 =>
              rw [hpo] at hrun
              simp only [Prod.mk.injEq] at hrun
              obtain ⟨rfl, rfl, rfl⟩ := hrun
              exact processOutput_bufLen_le _ p d2 hpo
            | error err =>
              rw [hpo] at hrun
              cases err with
              | recoverable =>
                simp only at hrun
                exact ih { d with seekRequiredTs := none, timestamp := p.ts } d' evs' r hbl hrun
              | noTracks =>
                simp only [Prod.mk.injEq] at hrun
                obtain ⟨rfl, rfl, rfl⟩ := hrun
                exact hbl
              | formatNotFound =>
                simp only [Prod.mk.injEq] at hrun
                obtain ⟨rfl, rfl, rfl⟩ := hrun
                exact hbl
              | unsupportedCodec =>
                simp only [Prod.mk.injEq] at hrun
                obtain ⟨rfl, rfl, rfl⟩ := hrun
                exact hbl
              | unsupportedFormat =>
                simp only [Prod.mk.injEq] at hrun
                obtain ⟨rfl, rfl, rfl⟩ := hrun
                exact hbl
              | decodeError =>
                simp only [Prod.mk.injEq] at hrun
                obtain ⟨rfl, rfl, rfl⟩ := hrun
                exact hbl
              | resetRequired =>
                simp only [Prod.mk.injEq] at hrun
                obtain ⟨rfl, rfl, rfl⟩ := hrun
                exact hbl
        | none =>
          have hred : d.nextLoop (ReaderEvent.packet p :: rest)
              = (match DecoderS.processOutput { d with timestamp := p.ts } p with
                 | .ok d2 => (d2, rest, .ok (some ()))
                 | .error .recoverable =>
                   DecoderS.nextLoop { d with timestamp := p.ts } rest
                 | .error e => ({ d with timestamp := p.ts }, rest, .error e)) := by
            simp [DecoderS.nextLoop, htid, hm]
          rw [hred] at hrun
          cases hpo : DecoderS.processOutput { d with timestamp := p.ts } p with
          | ok d2 =>
            rw [hpo] at hrun
            simp only [Prod.mk.injEq] at hrun
            obtain ⟨rfl, rfl, rfl⟩ := hrun
            exact processOutput_bufLen_le _ p d2 hpo
          | error err =>
            rw [hpo] at hrun
            cases err with
            | recoverable =>
              simp only at hrun
              exact ih { d with timestamp := p.ts } d' evs' r hbl hrun
            | noTracks =>
              simp only [Prod.mk.injEq] at hrun
              obtain ⟨rfl, rfl, rfl⟩ := hrun
              exact hbl
            | formatNotFound =>
              simp only [Prod.mk.injEq] at hrun
              obtain ⟨rfl, rfl, rfl⟩ := hrun
              exact hbl
            | unsupportedCodec =>
              simp only [Prod.mk.injEq] at hrun
              obtain ⟨rfl, rfl, rfl⟩ := hrun
              exact hbl
            | unsupportedFormat =>
              simp only [Prod.mk.injEq] at hrun
              obtain ⟨rfl, rfl, rfl⟩ := hrun
              exact hbl
            | decodeError =>
              simp only [Prod.mk.injEq] at hrun
              obtain ⟨rfl, rfl, rfl⟩ := hrun
              exact hbl
            | resetRequired =>
              simp only [Prod.mk.injEq] at hrun
              obtain ⟨rfl, rfl, rfl⟩ := hrun
              exact hbl
      · rw [show d.nextLoop (ReaderEvent.packet p :: rest) = d.nextLoop rest from by
          simp [DecoderS.nextLoop, htid]] at hrun
        exact ih d d' evs' r hbl hrun

theorem next_bufLen_le (d : DecoderS) (evs : List ReaderEvent) (d' : DecoderS)
    (evs' : List ReaderEvent) (r : Except DecoderErr (Option (List ℚ)))
    (hbl : d.bufLen ≤ d.buf.length) (hrun : d.next evs = (d', evs', r)) :
    d'.bufLen ≤ d'.buf.length := by
  unfold DecoderS.next at hrun
  by_cases hp : d.paused
  · rw [if_pos hp] at hrun
    simp only [Prod.mk.injEq] at hrun
    obtain ⟨rfl, rfl, rfl⟩ := hrun
    simpa using hbl
  · rw [if_neg hp] at hrun
    rcases hnl : d.nextLoop evs with ⟨da, evsa, ra⟩
    rw [hnl] at hrun
    have h := nextLoop_bufLen_le evs d da evsa ra hbl hnl
    cases ra with
    | ok oo =>
      cases oo with
      | some u =>
        simp only [Prod.mk.injEq] at hrun
        obtain ⟨rfl, rfl, rfl⟩ := hrun
        exact h
      | none =>
        simp only [Prod.mk.injEq] at hrun
        obtain ⟨rfl, rfl, rfl⟩ := hrun
        exact h
    | error e =>
      simp only [Prod.mk.injEq] at hrun
      obtain ⟨rfl, rfl, rfl⟩ := hrun
      exact h

theorem trim_take_map (a : ℚ) (D : List ℚ) (idx n : Nat) (h : n + idx ≤ D.length) :
    (((D.drop idx).map (fun b => mulAmp b a)).take n ++ D.drop n).take n
      = ((((D.drop idx).map (fun b => mulAmp b IDENTITY)).take n ++ D.drop n).take n).map
          (fun s => mulAmp s a) := by
  have hl1 : n ≤ (((D.drop idx).map (fun b => mulAmp b a)).take n).length := by
    simp; omega
  have hl2 : n ≤ (((D.drop idx).map (fun b => mulAmp b IDENTITY)).take n).length := by
    simp; omega
  rw [List.take_append_of_le_length hl1, List.take_append_of_le_length hl2,
    List.take_take, List.take_take, Nat.min_self]
  rw [← List.map_take, ← List.map_take, List.map_map]
  simp only [mulAmp, IDENTITY, Function.comp, mul_one]
  rfl

theorem initializeLoop_volume_indep (a : ℚ) :
    ∀ (fuel : Nat) (d : DecoderS) (evs : List ReaderEvent) (sk : Nat)
      (d1 : DecoderS) (evs1 : List ReaderEvent) (sk1 : Nat),
      d.bufLen ≤ d.buf.length →
      DecoderS.initializeLoop a .trimSilence fuel d evs sk = some (.ok (d1, evs1, sk1)) →
      ∃ d2, DecoderS.initializeLoop IDENTITY .trimSilence fuel d evs sk
          = some (.ok (d2, evs1, sk1))
        ∧ d1.current = d2.current.map (fun s => mulAmp s a)
        ∧ d1.volume = a ∧ d2.volume = IDENTITY := by
  intro fuel
  induction fuel with
  | zero =>
    intro d evs sk d1 evs1 sk1 _ hrun
    simp [DecoderS.initializeLoop] at hrun
  | succ fuel ih =>
    intro d evs sk d1 evs1 sk1 hbl hrun
    rw [DecoderS.initializeLoop] at hrun
    rcases hnx : d.next evs with ⟨dn, evsn, rr⟩
    rw [hnx] at hrun
    cases rr with
    | error e => simp at hrun
    | ok ov =>
      dsimp only at hrun
      rw [if_neg (by decide : ¬ (InitializeOpt.trimSilence = InitializeOpt.preserveSilence))]
        at hrun
      have hbln : dn.bufLen ≤ dn.buf.length := next_bufLen_le d evs dn evsn (.ok ov) hbl hnx
      by_cases htb : dn.timeBase.denom = 1
      · rw [if_pos htb] at hrun
        cases hfi : ({ dn with timeBase := (⟨1, dn.sampleRate⟩ : TimeBase) }).buf.findIdx?
            (fun s => s != MID) with
        | some index =>
          rw [hfi] at hrun
          dsimp only at hrun
          simp only [Option.some.injEq, Except.ok.injEq, Prod.mk.injEq] at hrun
          obtain ⟨rfl, rfl, rfl⟩ := hrun
          have hidx : index < dn.buf.length :=
            (List.findIdx?_eq_some_iff_findIdx_eq.mp hfi).1
          rw [DecoderS.initializeLoop, hnx]
          dsimp only
          rw [if_neg (by decide : ¬ (InitializeOpt.trimSilence
              = InitializeOpt.preserveSilence)), if_pos htb, hfi]
          refine ⟨_, rfl, ?_, rfl, rfl⟩
          simp only [DecoderS.current]
          dsimp only
          apply trim_take_map
          by_cases hcond : ({ dn with timeBase := (⟨1, dn.sampleRate⟩ : TimeBase)
              } : DecoderS).outputChannels = 2 ∧ index % 2 = 1
          · rw [if_pos hcond]
            omega
          · rw [if_neg hcond]
            omega
        | none =>
          rw [hfi] at hrun
          dsimp only at hrun
          obtain ⟨d2, hid2, hcur, hv1, hv2⟩ :=
            ih { dn with timeBase := (⟨1, dn.sampleRate⟩ : TimeBase) } evsn _
              d1 evs1 sk1 hbln hrun
          refine ⟨d2, ?_, hcur, hv1, hv2⟩
          rw [DecoderS.initializeLoop, hnx]
          dsimp only
          rw [if_neg (by decide : ¬ (InitializeOpt.trimSilence
              = InitializeOpt.preserveSilence)), if_pos htb, hfi]
          exact hid2
      · rw [if_neg htb] at hrun
        cases hfi : dn.buf.findIdx? (fun s => s != MID) with
        | some index =>
          rw [hfi] at hrun
          dsimp only at hrun
          simp only [Option.some.injEq, Except.ok.injEq, Prod.mk.injEq] at hrun
          obtain ⟨rfl, rfl, rfl⟩ := hrun
          have hidx : index < dn.buf.length :=
            (List.findIdx?_eq_some_iff_findIdx_eq.mp hfi).1
          rw [DecoderS.initializeLoop, hnx]
          dsimp only
          rw [if_neg (by decide : ¬ (InitializeOpt.trimSilence
              = InitializeOpt.preserveSilence)), if_neg htb, hfi]
          refine ⟨_, rfl, ?_, rfl, rfl⟩
          simp only [DecoderS.current]
          apply trim_take_map
          by_cases hcond : dn.outputChannels = 2 ∧ index % 2 = 1
          · rw [if_pos hcond]
            omega
          · rw [if_neg hcond]
            omega
        | none =>
          rw [hfi] at hrun
          dsimp only at hrun
          obtain ⟨d2, hid2, hcur, hv1, hv2⟩ := ih dn evsn _ d1 evs1 sk1 hbln hrun
          refine ⟨d2, ?_, hcur, hv1, hv2⟩
          rw [DecoderS.initializeLoop, hnx]
          dsimp only
          rw [if_neg (by decide : ¬ (InitializeOpt.trimSilence
              = InitializeOpt.preserveSilence)), if_neg htb, hfi]
          exact hid2

/-- C10: leading-silence trimming is independent of the configured volume —
`initialize` forces the volume to `IDENTITY` during the silence search, so a
decoder constructed with any volume (including 0) trims exactly like one with
volume `IDENTITY` (same remaining stream and skip count); the retained
suffix is the identity-run suffix scaled by the configured volume, which is
restored before initialization returns. -/
theorem trimming_volume_independent (v : ℚ) (out tid fuel : Nat) (tb : TimeBase)
    (evs : List ReaderEvent) (d1 : DecoderS) (evs1 : List ReaderEvent) (sk : Nat)
    (hrun : (DecoderS.mk0 v out tid tb).initializeD .trimSilence fuel evs
        = some (.ok (d1, evs1, sk))) :
    ∃ d2, (DecoderS.mk0 IDENTITY out tid tb).initializeD .trimSilence fuel evs
        = some (.ok (d2, evs1, sk))
      ∧ d1.current = d2.current.map (fun s => mulAmp s v)
      ∧ d1.volume = v ∧ d2.volume = IDENTITY := by
  unfold DecoderS.initializeD at hrun ⊢
  simp only [DecoderS.mk0, if_true] at hrun ⊢
  exact initializeLoop_volume_indep v fuel _ evs 0 d1 evs1 sk (Nat.le_refl 0) hrun

/-- Witness for C10: the volume-0 trimming run over `trimEvents` relates to
the identity-volume run with the same skip count and a suffix scaled by 0. -/
theorem trimming_volume_independent_witness :
    ((DecoderS.mk0 0 2 7 ⟨1, 1⟩).initializeD .trimSilence 1 trimEvents
        = some (.ok (trimmedDec, [], 2)))
      ∧ ∃ d2, (DecoderS.mk0 IDENTITY 2 7 ⟨1, 1⟩).initializeD .trimSilence 1 trimEvents
          = some (.ok (d2, [], 2))
        ∧ trimmedDec.current = d2.current.map (fun s => mulAmp s 0) := by
  refine ⟨by with_unfolding_all rfl, ?_⟩
  obtain ⟨d2, h1, h2, -, -⟩ :=
    trimming_volume_independent 0 2 7 1 ⟨1, 1⟩ trimEvents trimmedDec [] 2
      (by with_unfolding_all rfl)
  exact ⟨d2, h1, h2⟩
